import Mathlib

/-!
Verification of the per-field argument-definition pipeline of the `dcargs`
library (`dcargs/_arguments.py`) against its natural-language specification.

The pipeline is embedded shallowly:

* Python dynamic values that flow through the pipeline are modelled by
  `PyValue`; an absent value (Python `None` used as the "no default" marker)
  is modelled by `Option.none`, while a materialized Python `None` value
  (produced for instance when an optional field is omitted) is `PyValue.pynone`.
* Type annotations are modelled by `TypeAnn`.
* Each transformation stage of `ArgumentDefinition.make_from_field` is a Lean
  function `ArgumentDefinition -> ArgumentDefinition` (or `Except` where the
  Python code can fail an assertion), translated line by line from
  `dcargs/_arguments.py`.
* The `_instantiators` module is not part of the provided sources; the
  resolver metadata and the instantiator semantics are modelled from the
  specification (section 4.1) and are marked `Modelled from the spec` below.
* The external argparse engine is likewise modelled from the specification
  (section 6).
-/

namespace Dcargs

/-- Dynamic (Python) values that flow through the argument pipeline.
`pynone` is a materialized Python `None` value; an *absent* default is
represented by `Option.none` at use sites. -/
inductive PyValue where
  | pynone
  | bool (b : Bool)
  | int (n : Int)
  | str (s : String)
  | enumMember (enumName memberName : String)
  | tuple (xs : List PyValue)
  | list (xs : List PyValue)
  deriving Repr

mutual

/-- Boolean equality on `PyValue` (needed because automatic `DecidableEq`
derivation does not support the nested `List PyValue` occurrences). -/
def PyValue.beq : PyValue → PyValue → Bool
  | .pynone, .pynone => true
  | .bool a, .bool c => a == c
  | .int a, .int c => a == c
  | .str a, .str c => a == c
  | .enumMember a b, .enumMember c d => a == c && b == d
  | .tuple xs, .tuple ys => PyValue.beqList xs ys
  | .list xs, .list ys => PyValue.beqList xs ys
  | _, _ => false

/-- Pointwise `PyValue.beq` on lists. -/
def PyValue.beqList : List PyValue → List PyValue → Bool
  | [], [] => true
  | x :: xs, y :: ys => PyValue.beq x y && PyValue.beqList xs ys
  | _, _ => false

end

mutual

theorem PyValue.eq_of_beq : ∀ {a b : PyValue}, PyValue.beq a b = true → a = b
  | .pynone, .pynone, _ => rfl
  | .bool _, .bool _, h => by simpa [PyValue.beq] using h
  | .int _, .int _, h => by simpa [PyValue.beq] using h
  | .str _, .str _, h => by simpa [PyValue.beq] using h
  | .enumMember _ _, .enumMember _ _, h => by
      simp [PyValue.beq] at h; exact congrArg₂ _ h.1 h.2
  | .tuple _, .tuple _, h =>
      congrArg PyValue.tuple (PyValue.eqList_of_beqList (by simpa [PyValue.beq] using h))
  | .list _, .list _, h =>
      congrArg PyValue.list (PyValue.eqList_of_beqList (by simpa [PyValue.beq] using h))

theorem PyValue.eqList_of_beqList : ∀ {xs ys : List PyValue},
    PyValue.beqList xs ys = true → xs = ys
  | [], [], _ => rfl
  | x :: xs, y :: ys, h => by
      simp only [PyValue.beqList, Bool.and_eq_true] at h
      rw [PyValue.eq_of_beq h.1, PyValue.eqList_of_beqList h.2]

end

mutual

theorem PyValue.beq_refl : ∀ (a : PyValue), PyValue.beq a a = true
  | .pynone => rfl
  | .bool _ => by simp [PyValue.beq]
  | .int _ => by simp [PyValue.beq]
  | .str _ => by simp [PyValue.beq]
  | .enumMember _ _ => by simp [PyValue.beq]
  | .tuple xs => PyValue.beqList_refl xs
  | .list xs => PyValue.beqList_refl xs

theorem PyValue.beqList_refl : ∀ (xs : List PyValue), PyValue.beqList xs xs = true
  | [] => rfl
  | x :: xs => by
      simp only [PyValue.beqList, Bool.and_eq_true]
      exact ⟨PyValue.beq_refl x, PyValue.beqList_refl xs⟩

end

instance : DecidableEq PyValue := fun a b =>
  if h : PyValue.beq a b = true then .isTrue (PyValue.eq_of_beq h)
  else .isFalse (fun he => h (he ▸ PyValue.beq_refl a))

/-- Type annotations supported by the pipeline: the leaf shapes exercised by
the test-suite together with the wrapper and container shapes of the
specification (section 4.1). `annotated` covers the transparent wrappers
(`Annotated`, `Final`). -/
inductive TypeAnn where
  | bool
  | int
  | str
  | enum (name : String) (members : List String)
  | literal (values : List PyValue)
  | optional (t : TypeAnn)
  | annotated (t : TypeAnn)
  | tuple (ts : List TypeAnn)
  | list (t : TypeAnn)
  deriving Repr

mutual

/-- Boolean equality on `TypeAnn` (manual, because of the nested lists). -/
def TypeAnn.beq : TypeAnn → TypeAnn → Bool
  | .bool, .bool => true
  | .int, .int => true
  | .str, .str => true
  | .enum a ms, .enum b ns => a == b && ms == ns
  | .literal vs, .literal ws => PyValue.beqList vs ws
  | .optional a, .optional b => TypeAnn.beq a b
  | .annotated a, .annotated b => TypeAnn.beq a b
  | .tuple as_, .tuple bs => TypeAnn.beqListT as_ bs
  | .list a, .list b => TypeAnn.beq a b
  | _, _ => false

/-- Pointwise `TypeAnn.beq` on lists. -/
def TypeAnn.beqListT : List TypeAnn → List TypeAnn → Bool
  | [], [] => true
  | x :: xs, y :: ys => TypeAnn.beq x y && TypeAnn.beqListT xs ys
  | _, _ => false

end

mutual

theorem TypeAnn.eq_of_beqT : ∀ {a b : TypeAnn}, TypeAnn.beq a b = true → a = b
  | .bool, .bool, _ => rfl
  | .int, .int, _ => rfl
  | .str, .str, _ => rfl
  | .enum _ _, .enum _ _, h => by
      simp [TypeAnn.beq] at h; exact congrArg₂ _ h.1 h.2
  | .literal _, .literal _, h =>
      congrArg TypeAnn.literal (PyValue.eqList_of_beqList (by simpa [TypeAnn.beq] using h))
  | .optional _, .optional _, h =>
      congrArg TypeAnn.optional (TypeAnn.eq_of_beqT (by simpa [TypeAnn.beq] using h))
  | .annotated _, .annotated _, h =>
      congrArg TypeAnn.annotated (TypeAnn.eq_of_beqT (by simpa [TypeAnn.beq] using h))
  | .tuple _, .tuple _, h =>
      congrArg TypeAnn.tuple (TypeAnn.eqListT_of_beqListT (by simpa [TypeAnn.beq] using h))
  | .list _, .list _, h =>
      congrArg TypeAnn.list (TypeAnn.eq_of_beqT (by simpa [TypeAnn.beq] using h))

theorem TypeAnn.eqListT_of_beqListT : ∀ {xs ys : List TypeAnn},
    TypeAnn.beqListT xs ys = true → xs = ys
  | [], [], _ => rfl
  | x :: xs, y :: ys, h => by
      simp only [TypeAnn.beqListT, Bool.and_eq_true] at h
      rw [TypeAnn.eq_of_beqT h.1, TypeAnn.eqListT_of_beqListT h.2]

end

mutual

theorem TypeAnn.beqT_refl : ∀ (a : TypeAnn), TypeAnn.beq a a = true
  | .bool => rfl
  | .int => rfl
  | .str => rfl
  | .enum _ _ => by simp [TypeAnn.beq]
  | .literal vs => PyValue.beqList_refl vs
  | .optional a => TypeAnn.beqT_refl a
  | .annotated a => TypeAnn.beqT_refl a
  | .tuple xs => TypeAnn.beqListT_refl xs
  | .list a => TypeAnn.beqT_refl a

theorem TypeAnn.beqListT_refl : ∀ (xs : List TypeAnn), TypeAnn.beqListT xs xs = true
  | [] => rfl
  | x :: xs => by
      simp only [TypeAnn.beqListT, Bool.and_eq_true]
      exact ⟨TypeAnn.beqT_refl x, TypeAnn.beqListT_refl xs⟩

end

instance : DecidableEq TypeAnn := fun a b =>
  if h : TypeAnn.beq a b = true then .isTrue (TypeAnn.eq_of_beqT h)
  else .isFalse (fun he => h (he ▸ TypeAnn.beqT_refl a))

/-! ### Decimal rendering and parsing of integers

Python `str(int)` renders signed decimal; the reverse direction models the
primitive string-to-int instantiator. A fuel-indexed digit accumulator keeps
both directions structurally recursive (hence kernel-evaluable). -/

/-- Decimal digit characters of `n`, most significant first; empty for `n = 0`.
The fuel argument only needs to satisfy `n ≤ fuel`. -/
def natDigitsAux : Nat → Nat → List Char
  | 0, _ => []
  | fuel + 1, n => if n = 0 then [] else natDigitsAux fuel (n / 10) ++ [Nat.digitChar (n % 10)]

/-- Decimal rendering of a natural number, as Python `str` renders it. -/
def natToString (n : Nat) : String :=
  if n = 0 then ("0") else ⟨natDigitsAux (n + 1) n⟩

/-- Decimal rendering of an integer, as Python `str` renders it. -/
def intToString (n : Int) : String :=
  if n < 0 then ("-") ++ natToString n.natAbs else natToString n.natAbs

/-- Numeric value of a decimal digit character. -/
def charToDigit (c : Char) : Option Nat :=
  if c.isDigit then some (c.toNat - 48) else none

/-- One step of decimal accumulation; `none` is sticky and also produced by
non-digit characters. -/
def pushDigit (acc : Option Nat) (c : Char) : Option Nat :=
  match acc, charToDigit c with
  | some a, some d => some (a * 10 + d)
  | _, _ => none

/-- Parse a non-empty all-digit character list as a natural number. -/
def digitsToNat : List Char → Option Nat
  | [] => none
  | cs => cs.foldl pushDigit (some 0)

/-- Modelled from the spec: the primitive string-to-value instantiator for
integers (section 4.1 rule 10, the `_instantiators` module is not in the
provided sources). Accepts an optional leading minus sign followed by decimal
digits. -/
def strToInt (s : String) : Option Int :=
  match s.data with
  | '-' :: rest =>
      match digitsToNat rest with
      | some m => some (-(m : Int))
      | none => none
  | _ =>
      match digitsToNat s.data with
      | some m => some ((m : Int))
      | none => none

mutual

/-- Python `repr` of a value, restricted to the shapes the pipeline
exercises (the container branches of `str` fall back to `repr` of the
elements; string quoting is simplified to plain single quotes and the
`repr` of an enum member omits its payload value, neither shape is reached
by the pipeline stages modelled here). -/
def pyRepr : PyValue → String
  | .pynone => ("None")
  | .bool true => ("True")
  | .bool false => ("False")
  | .int n => intToString n
  | .str s => ("\x27") ++ s ++ ("\x27")
  | .enumMember e m => ("<") ++ e ++ (".") ++ m ++ (">")
  | .tuple xs => ("(") ++ String.intercalate (", ") (pyReprList xs) ++ (")")
  | .list xs => ("[") ++ String.intercalate (", ") (pyReprList xs) ++ ("]")

/-- Pointwise `pyRepr`. -/
def pyReprList : List PyValue → List String
  | [] => []
  | x :: xs => pyRepr x :: pyReprList xs

end

/-- Python `str()` of a value. -/
def pyStr : PyValue → String
  | .pynone => ("None")
  | .bool true => ("True")
  | .bool false => ("False")
  | .int n => intToString n
  | .str s => s
  | .enumMember e m => e ++ (".") ++ m
  | .tuple xs => pyRepr (.tuple xs)
  | .list xs => pyRepr (.list xs)

/-- Helper `as_str` of `_transform_convert_defaults_to_strings`
(`_arguments.py` lines 208-212): enum members render as their member name,
everything else through `str()`. -/
def as_str (x : PyValue) : String :=
  match x with
  | .enumMember _ m => m
  | _ => pyStr x

/-- The apostrophe character, used by the shell-quoting model. -/
def squoteChar : Char := Char.ofNat 39

/-- Characters `shlex.quote` considers safe (CPython `_find_unsafe`:
ASCII alphanumerics, underscore, at, percent, plus, equals, colon, comma,
dot, slash and hyphen). -/
def shlexSafeChar (c : Char) : Bool :=
  c.isAlphanum || c = '_' || c = '@' || c = '%' || c = '+' || c = '=' ||
    c = ':' || c = ',' || c = '.' || c = '/' || c = '-'

/-- CPython `shlex.quote`: empty strings become a pair of quotes, safe
strings pass through, anything else is single-quoted with embedded quotes
escaped. -/
def shlexQuote (s : String) : String :=
  if s = ("") then ("\x27\x27")
  else if s.data.all shlexSafeChar then s
  else ("\x27") ++ (⟨(s.data.map (fun c => if c = squoteChar then ("\x27\"\x27\"\x27" : String).data else [c])).flatten⟩ : String) ++ ("\x27")

/-- Python `s.replace("_", "-")` (single-character pattern, hence a
character map). Used by `ArgumentDefinition.get_flag`. -/
def hyphenate (s : String) : String :=
  ⟨s.data.map (fun c => if c = '_' then '-' else c)⟩

/-- Reverse direction performed by argparse when it derives a destination
from a long flag: `dest.replace("-", "_")`. -/
def unhyphen (s : String) : String :=
  ⟨s.data.map (fun c => if c = '-' then '_' else c)⟩

/-- Python `s.replace("%", "%%")` from `_transform_generate_helptext`. -/
def escapePercent (s : String) : String :=
  ⟨(s.data.map (fun c => if c = '%' then ['%', '%'] else [c])).flatten⟩

/-- Python iteration over a value (`tuple(map(...))`, `" ".join(map(...))`):
containers yield their elements, strings yield their characters as
one-character strings, everything else is not iterable. -/
def pyIter : PyValue → List PyValue
  | .tuple xs => xs
  | .list xs => xs
  | .str s => s.data.map (fun c => PyValue.str (String.singleton c))
  | _ => []

/-- Python `hasattr(x, "__iter__")` for the modelled value shapes. -/
def hasIter : PyValue → Bool
  | .tuple _ => true
  | .list _ => true
  | .str _ => true
  | _ => false

end Dcargs

namespace Dcargs

/-- Argparse action kinds the pipeline emits (`store_true`, `store_false`). -/
inductive ArgAction where
  | storeTrue
  | storeFalse
  deriving DecidableEq, Repr

/-- Argparse arity: a fixed element count or a variadic container. -/
inductive NArgs where
  | fixed (n : Nat)
  | variadic
  deriving DecidableEq, Repr

/-- Parse-time failures of the engine and of the instantiators
(specification section 7). `usageError` stands for the remaining argparse
usage failures (for example a value supplied to a flag-only argument). -/
inductive ParseErr where
  | missingRequired
  | conversionError
  | invalidChoice
  | usageError
  deriving DecidableEq, Repr

/-- Apply positional element instantiators, failing on an arity mismatch. -/
def applySeq : List (PyValue → Except ParseErr PyValue) → List PyValue →
    Except ParseErr (List PyValue)
  | [], [] => .ok []
  | f :: fs, v :: vs => do
      let x ← f v
      let xs ← applySeq fs vs
      pure (x :: xs)
  | _, _ => .error .conversionError

/-- Apply one element instantiator to every element of a variadic container. -/
def applyAll (f : PyValue → Except ParseErr PyValue) : List PyValue →
    Except ParseErr (List PyValue)
  | [] => .ok []
  | v :: vs => do
      let x ← f v
      let xs ← applyAll f vs
      pure (x :: xs)

mutual

/-- Modelled from the spec: the value instantiator the missing
`_instantiators.instantiator_from_type` returns for a type annotation
(specification section 4.1, rules 1 and 4-10; rule 8 is modelled for
ordered sequences). The argument is the raw engine output: a string for
scalar arguments, a container of per-element strings for arity-carrying
arguments, a materialized `None` for an omitted optional argument. The
boolean instantiator accepts exactly the two case-sensitive canonical
spellings. -/
def instantiatorFor : TypeAnn → PyValue → Except ParseErr PyValue
  | .annotated t => fun v => instantiatorFor t v
  | .optional t => fun v => if v = .pynone then .ok .pynone else instantiatorFor t v
  | .bool => fun v =>
      match v with
      | .str s =>
          if s = ("True") then .ok (.bool true)
          else if s = ("False") then .ok (.bool false)
          else .error .conversionError
      | _ => .error .conversionError
  | .int => fun v =>
      match v with
      | .str s =>
          match strToInt s with
          | some n => .ok (.int n)
          | none => .error .conversionError
      | _ => .error .conversionError
  | .str => fun v =>
      match v with
      | .str s => .ok (.str s)
      | _ => .error .conversionError
  | .enum e mems => fun v =>
      match v with
      | .str s => if mems.contains s then .ok (.enumMember e s) else .error .invalidChoice
      | _ => .error .conversionError
  | .literal vals => fun v =>
      match v with
      | .str s =>
          match vals.find? (fun c => as_str c = s) with
          | some c => .ok c
          | none => .error .invalidChoice
      | _ => .error .conversionError
  | .tuple ts => fun v =>
      match v with
      | .tuple vs => (applySeq (instantiatorsFor ts) vs).map PyValue.tuple
      | .list vs => (applySeq (instantiatorsFor ts) vs).map PyValue.tuple
      | _ => .error .conversionError
  | .list t => fun v =>
      match v with
      | .tuple vs => (applyAll (instantiatorFor t) vs).map PyValue.list
      | .list vs => (applyAll (instantiatorFor t) vs).map PyValue.list
      | _ => .error .conversionError

/-- Pointwise instantiators for a heterogeneous fixed-size container. -/
def instantiatorsFor : List TypeAnn → List (PyValue → Except ParseErr PyValue)
  | [] => []
  | t :: ts => instantiatorFor t :: instantiatorsFor ts

end

/-- Modelled from the spec: the argument metadata the missing
`_instantiators.instantiator_from_type` returns alongside the instantiator
(specification section 4.1): choices (member names for enums, stringified
constants for literal types), arity, optionality and a free-form value hint
that is irrelevant to every claim below. -/
structure TypeMetadata where
  choices : Option (List String)
  nargs : Option NArgs
  isOptional : Bool
  metavar : Option String
  deriving DecidableEq, Repr

/-- Modelled from the spec: metadata resolution over a type annotation
(specification section 4.1; transparent wrappers recurse unchanged, optional
types recurse on the payload with `isOptional` set). -/
def metadataOf : TypeAnn → TypeMetadata
  | .annotated t => metadataOf t
  | .optional t => { metadataOf t with isOptional := true }
  | .bool => ⟨none, none, false, some ("BOOL")⟩
  | .int => ⟨none, none, false, some ("INT")⟩
  | .str => ⟨none, none, false, some ("STR")⟩
  | .enum _ mems => ⟨some mems, none, false, none⟩
  | .literal vals => ⟨some (vals.map as_str), none, false, none⟩
  | .tuple ts => ⟨none, some (.fixed ts.length), false, some ("TUPLE")⟩
  | .list _ => ⟨none, some .variadic, false, some ("LIST")⟩

/-- The instantiator attached to an argument definition: either the identity
closure `lambda x: x` that `_transform_handle_boolean_flags` installs, or the
type-driven instantiator the resolver installs. -/
inductive Instantiator where
  | identity
  | fromType (t : TypeAnn)
  deriving DecidableEq, Repr

/-- Run an instantiator on a raw engine value. -/
def Instantiator.run : Instantiator → PyValue → Except ParseErr PyValue
  | .identity, v => .ok v
  | .fromType t, v => instantiatorFor t v

/-- The `ArgumentDefinition` dataclass of `_arguments.py` (lines 10-41).
`pfx` is the source field `prefix` (renamed for Lean); the source fields
`field` and `parent_class` are provenance used only for the docstring
lookup, kept here as `fieldName` with the looked-up docstring passed to the
helptext stage directly. -/
structure ArgumentDefinition where
  pfx : String
  fieldName : String
  instantiator : Option Instantiator
  name : String
  type : Option TypeAnn
  default : Option PyValue
  required : Bool := false
  action : Option ArgAction := none
  nargs : Option NArgs := none
  choices : Option (List PyValue) := none
  metavar : Option String := none
  help : Option String := none
  dest : Option String := none
  deriving DecidableEq, Repr

/-- Source `ArgumentDefinition.get_flag` (lines 71-73): two dashes followed
by prefix plus name with underscores rendered as hyphens. -/
def ArgumentDefinition.getFlag (arg : ArgumentDefinition) : String :=
  ("--") ++ hyphenate (arg.pfx ++ arg.name)

/-- Source `_transform_required_if_default_set` (lines 104-110): mark the
argument required exactly when no default is present. -/
def requiredIfDefaultSet (arg : ArgumentDefinition) : ArgumentDefinition :=
  if arg.default = none then { arg with required := true } else arg

/-- Source `_transform_handle_boolean_flags` (lines 113-140). Non-bool
fields and bool fields without a default pass through; default `False`
installs `store_true`; default `True` renames the flag to its negated
spelling while pinning `dest` to the original name and installs
`store_false`; both clear `type` and install the identity instantiator.
Any other default fails the `Invalid default` assertion, modelled as an
error. -/
def handleBooleanFlags (arg : ArgumentDefinition) : Except String ArgumentDefinition :=
  if arg.type ≠ some .bool then .ok arg
  else
    match arg.default with
    | none => .ok arg
    | some (.bool false) =>
        .ok { arg with action := some .storeTrue, type := none,
                       instantiator := some .identity }
    | some (.bool true) =>
        .ok { arg with dest := some arg.name, name := ("no_") ++ arg.name,
                       action := some .storeFalse, type := none,
                       instantiator := some .identity }
    | some _ => .error ("Invalid default")

/-- Source `_transform_recursive_instantiator_from_type` (lines 143-163):
skipped when an instantiator is already attached; otherwise attaches the
type-driven instantiator and the resolver metadata, clearing `required`
for optional types and suppressing the metavar when choices are set. -/
def recursiveInstantiatorFromType (arg : ArgumentDefinition) :
    Except String ArgumentDefinition :=
  if arg.instantiator.isSome then .ok arg
  else
    match arg.type with
    | none => .error ("unsupported type")
    | some t =>
        let md := metadataOf t
        .ok { arg with
              instantiator := some (.fromType t),
              choices := md.choices.map (List.map PyValue.str),
              nargs := md.nargs,
              required := (!md.isOptional) && arg.required,
              metavar := if md.choices.isSome then none else md.metavar }

/-- Python `str()` of an optional value, where the absent marker is the
`None` object (`str(None)` is the string `None`). -/
def pyStrOpt : Option PyValue → String
  | none => ("None")
  | some v => pyStr v

/-- Whether a default is present and is an enum member
(`isinstance(arg.default, enum.Enum)`). -/
def isEnumDefault : Option PyValue → Bool
  | some (.enumMember _ _) => true
  | _ => false

/-- Member name of an enum default (`arg.default.name`). -/
def enumNameOf : Option PyValue → String
  | some (.enumMember _ m) => m
  | _ => ("")

/-- Docstring part of the helptext (the escaped collaborator text, when
present). -/
def docPartsOf (docstring : Option String) : List String :=
  match docstring with
  | some d => [escapePercent d]
  | none => []

/-- Source `_transform_generate_helptext` (lines 166-199). The docstring
argument models the `_docstrings.get_field_docstring` collaborator (not in
the provided sources). Boolean actions show no default annotation; enum
defaults show their member name; otherwise non-required arguments show the
default, shell-quoted and space-joined element-wise when the argument
carries an arity and an iterable default, and directly `str`-converted and
shell-quoted otherwise. -/
def generateHelptext (docstring : Option String) (arg : ArgumentDefinition) :
    ArgumentDefinition :=
  let docParts : List String := docPartsOf docstring
  let defaultParts : List String :=
    if arg.action.isSome then []
    else if isEnumDefault arg.default then
      [("(default: ") ++ enumNameOf arg.default ++ (")")]
    else if !arg.required then
      if arg.nargs.isSome && (match arg.default with
                              | some d => hasIter d
                              | none => false) then
        [("(default: ") ++
          String.intercalate (" ")
            ((pyIter (arg.default.getD .pynone)).map (fun x => shlexQuote (pyStr x))) ++
          (")")]
      else
        [("(default: ") ++ shlexQuote (pyStrOpt arg.default) ++ (")")]
    else []
  { arg with help := some (String.intercalate (" ") (docParts ++ defaultParts)) }

/-- Source `_transform_convert_defaults_to_strings` (lines 202-219): absent
defaults and boolean-action arguments pass through; an arity-carrying
argument turns its default into the tuple of element-wise `as_str` strings;
every other default becomes the single `as_str` string. -/
def convertDefaultsToStrings (arg : ArgumentDefinition) : ArgumentDefinition :=
  match arg.default with
  | none => arg
  | some d =>
      if arg.action.isSome then arg
      else if arg.nargs.isSome then
        { arg with default := some (.tuple ((pyIter d).map (fun x => .str (as_str x)))) }
      else
        { arg with default := some (.str (as_str d)) }

/-- Source `ArgumentDefinition.make_from_field` (lines 75-101): build the
initial definition from the field and run the ordered stage pipeline. The
docstring argument stands in for the `parent_class` plus `field` provenance
that the helptext stage would look up. -/
def makeFromField (docstring : Option String) (fieldName : String)
    (fieldType : TypeAnn) (default : Option PyValue) :
    Except String ArgumentDefinition := do
  let arg : ArgumentDefinition :=
    { pfx := (""), fieldName := fieldName, instantiator := none,
      name := fieldName, type := some fieldType, default := default }
  let arg := requiredIfDefaultSet arg
  let arg ← handleBooleanFlags arg
  let arg ← recursiveInstantiatorFromType arg
  let arg := generateHelptext docstring arg
  pure (convertDefaultsToStrings arg)

/-- Modelled from the spec: nested-record flattening extends each child
definition with the parent field name plus a dot as namespace prefix
(specification section 4.1 rule 9; the recursive flattening lives in the
repository outside the provided sources). -/
def nestInside (parentField : String) (arg : ArgumentDefinition) : ArgumentDefinition :=
  { arg with pfx := parentField ++ (".") ++ arg.pfx }

end Dcargs

namespace Dcargs

/-- The keyword names `add_argument` forwards to argparse (source lines
42-66): `vars(self)` minus every `None`-valued attribute, minus the popped
provenance keys (`field`, `parent_class`, `prefix`, `instantiator`,
`name`). `required` is a plain bool and is therefore always forwarded. -/
def kwargsKeys (arg : ArgumentDefinition) : List String :=
  (if arg.type.isSome then [("type")] else []) ++
  (if arg.default.isSome then [("default")] else []) ++
  [("required")] ++
  (if arg.action.isSome then [("action")] else []) ++
  (if arg.nargs.isSome then [("nargs")] else []) ++
  (if arg.choices.isSome then [("choices")] else []) ++
  (if arg.metavar.isSome then [("metavar")] else []) ++
  (if arg.help.isSome then [("help")] else []) ++
  (if arg.dest.isSome then [("dest")] else [])

/-- The payload `add_argument` registers with the external parsing engine. -/
structure AddArgumentCall where
  flag : String
  type : Option TypeAnn
  default : Option PyValue
  required : Bool
  action : Option ArgAction
  nargs : Option NArgs
  choices : Option (List String)
  metavar : Option String
  help : Option String
  dest : Option String
  deriving DecidableEq, Repr

/-- Source `ArgumentDefinition.add_argument` (lines 42-69): the flag is the
positional argument; a present `dest` gets the prefix applied; a present
`type` is coerced to the string type; present `choices` are element-wise
stringified; `None`-valued attributes are dropped (the `Option` fields
carry that directly). -/
def addArgumentCall (arg : ArgumentDefinition) : AddArgumentCall :=
  { flag := arg.getFlag,
    type := arg.type.map (fun _ => TypeAnn.str),
    default := arg.default,
    required := arg.required,
    action := arg.action,
    nargs := arg.nargs,
    choices := arg.choices.map (List.map pyStr),
    metavar := arg.metavar,
    help := arg.help,
    dest := arg.dest.map (fun d => arg.pfx ++ d) }

/-- Modelled from the spec: the destination key the external engine files
parsed values under (specification sections 3 and 6). When `dest` was
registered it is used as passed (with the prefix already applied by
`add_argument`); otherwise argparse derives it from the long flag by
stripping the two dashes and mapping hyphens back to underscores. -/
def destinationKey (arg : ArgumentDefinition) : String :=
  match (addArgumentCall arg).dest with
  | some d => d
  | none => unhyphen ⟨arg.getFlag.data.drop 2⟩

/-- What the command line supplies for one argument: nothing, the bare
flag, or the flag with one value token. -/
inductive CmdInput where
  | absent
  | flagOnly
  | withToken (tok : String)
  deriving DecidableEq, Repr

/-- Modelled from the spec: the raw value the external argparse engine
produces for one registered argument (specification section 6): a
`store_true` or `store_false` action yields the corresponding boolean on
flag presence and the registered default on absence; a value-carrying
argument yields the raw token (checked against the stringified choices
when present), the registered default on absence, a missing-required
failure for an absent required argument and a materialized `None` for an
absent optional one. -/
def engineOutput (arg : ArgumentDefinition) (input : CmdInput) :
    Except ParseErr PyValue :=
  let call := addArgumentCall arg
  match input with
  | .absent =>
      match call.default with
      | some d => .ok d
      | none => if call.required then .error .missingRequired else .ok .pynone
  | .flagOnly =>
      match call.action with
      | some .storeTrue => .ok (.bool true)
      | some .storeFalse => .ok (.bool false)
      | none => .error .usageError
  | .withToken tok =>
      match call.action with
      | some _ => .error .usageError
      | none =>
          match call.choices with
          | some cs => if cs.contains tok then .ok (.str tok) else .error .invalidChoice
          | none => .ok (.str tok)

/-- Run the attached instantiator on a raw engine value (the engine invokes
the field action on the parsed value; a definition without an instantiator
passes the raw value through). -/
def runInstantiator (arg : ArgumentDefinition) (v : PyValue) :
    Except ParseErr PyValue :=
  match arg.instantiator with
  | some inst => inst.run v
  | none => .ok v

/-- Parse one argument end to end: engine output, then the instantiator. -/
def parseOne (arg : ArgumentDefinition) (input : CmdInput) :
    Except ParseErr PyValue := do
  let raw ← engineOutput arg input
  runInstantiator arg raw

/-- Build the definition for a field with default `v` through the full
pipeline, then parse it with zero user-supplied tokens. -/
def defaultRoundTrip (fieldName : String) (t : TypeAnn) (v : PyValue) :
    Except ParseErr PyValue :=
  match makeFromField none fieldName t (some v) with
  | .error _ => .error .usageError
  | .ok arg => parseOne arg .absent

/-- The supported leaf type annotations (primitives, enumerated types and
closed literal sets). -/
def isLeafType : TypeAnn → Bool
  | .bool => true
  | .int => true
  | .str => true
  | .enum _ _ => true
  | .literal _ => true
  | _ => false

/-- Value membership in a leaf type. -/
def wellTyped : TypeAnn → PyValue → Bool
  | .bool, .bool _ => true
  | .int, .int _ => true
  | .str, .str _ => true
  | .enum e _ms, .enumMember e2 m => e == e2 && _ms.contains m
  | .literal vals, v => vals.contains v
  | _, _ => false

/-- Whether the resolved type is optional-wrapped (the metadata flag the
resolver reports). -/
def TypeAnn.isOpt (t : TypeAnn) : Bool := (metadataOf t).isOptional

end Dcargs

namespace Dcargs

theorem data_append (a b : String) : (a ++ b).data = a.data ++ b.data := by
  cases a; cases b; rfl

theorem charToDigit_digitChar : ∀ d < 10, charToDigit (Nat.digitChar d) = some d := by
  decide

theorem digitChar_isDigit : ∀ d < 10, (Nat.digitChar d).isDigit = true := by
  decide

theorem foldl_natDigitsAux (fuel : Nat) : ∀ n a, n ≤ fuel →
    ((natDigitsAux fuel n).foldl pushDigit (some a) =
      some (a * 10 ^ (natDigitsAux fuel n).length + n)) ∧
    (∀ c ∈ natDigitsAux fuel n, c.isDigit = true) := by
  induction fuel with
  | zero =>
      intro n a h
      interval_cases n
      simp [natDigitsAux]
  | succ fuel ih =>
      intro n a h
      by_cases h0 : n = 0
      · subst h0; simp [natDigitsAux]
      · have hdiv : n / 10 ≤ fuel := by omega
        have hmod : n % 10 < 10 := by omega
        obtain ⟨ih1, ih2⟩ := ih (n / 10) a hdiv
        have hstep : natDigitsAux (fuel + 1) n =
            natDigitsAux fuel (n / 10) ++ [Nat.digitChar (n % 10)] := by
          simp [natDigitsAux, h0]
        constructor
        · rw [hstep, List.foldl_append, ih1]
          have hpush : pushDigit (some (a * 10 ^ (natDigitsAux fuel (n / 10)).length + n / 10))
              (Nat.digitChar (n % 10)) =
              some ((a * 10 ^ (natDigitsAux fuel (n / 10)).length + n / 10) * 10 + n % 10) := by
            simp [pushDigit, charToDigit_digitChar _ hmod]
          simp only [List.foldl_cons, List.foldl_nil, hpush, List.length_append,
            List.length_cons, List.length_nil]
          congr 1
          have hdm : n / 10 * 10 + n % 10 = n := by omega
          calc (a * 10 ^ (natDigitsAux fuel (n / 10)).length + n / 10) * 10 + n % 10
              = a * (10 ^ (natDigitsAux fuel (n / 10)).length * 10) +
                  (n / 10 * 10 + n % 10) := by ring
            _ = a * 10 ^ ((natDigitsAux fuel (n / 10)).length + 1) + n := by
                  rw [hdm, pow_succ]
        · rw [hstep]
          intro c hc
          rcases List.mem_append.mp hc with hc | hc
          · exact ih2 c hc
          · simp at hc; subst hc; exact digitChar_isDigit _ hmod

theorem digitsToNat_cons (c : Char) (cs : List Char) :
    digitsToNat (c :: cs) = (c :: cs).foldl pushDigit (some 0) := rfl

theorem natDigitsAux_ne_nil (n : Nat) (h0 : n ≠ 0) : natDigitsAux (n + 1) n ≠ [] := by
  simp [natDigitsAux, h0]

theorem digitsToNat_natToString (n : Nat) :
    digitsToNat (natToString n).data = some n := by
  by_cases h0 : n = 0
  · subst h0; decide
  · have hne := natDigitsAux_ne_nil n h0
    have hdata : (natToString n).data = natDigitsAux (n + 1) n := by
      simp [natToString, h0]
    obtain ⟨ih1, -⟩ := foldl_natDigitsAux (n + 1) n 0 (by omega)
    rw [hdata]
    cases hl : natDigitsAux (n + 1) n with
    | nil => exact absurd hl hne
    | cons c cs =>
        rw [digitsToNat_cons, ← hl, ih1]
        simp

theorem natToString_all_digits (n : Nat) :
    ∀ c ∈ (natToString n).data, c.isDigit = true := by
  by_cases h0 : n = 0
  · subst h0; decide
  · have hdata : (natToString n).data = natDigitsAux (n + 1) n := by
      simp [natToString, h0]
    rw [hdata]
    exact (foldl_natDigitsAux (n + 1) n 0 (by omega)).2

theorem strToInt_intToString (n : Int) : strToInt (intToString n) = some n := by
  rcases lt_or_ge n 0 with hn | hn
  · have hdata : (intToString n).data = '-' :: (natToString n.natAbs).data := by
      simp only [intToString, if_pos hn]
      rw [data_append]; rfl
    unfold strToInt
    rw [hdata]
    split
    · next rest heq =>
        obtain rfl : (natToString n.natAbs).data = rest := by
          injection heq
        rw [digitsToNat_natToString]
        show some (-((n.natAbs : Int))) = some n
        have habs : ((n.natAbs : Int)) = -n := by
          rw [Int.ofNat_natAbs_of_nonpos (le_of_lt hn)]
        rw [habs, neg_neg]
    · next hne => exact absurd rfl (hne _)
  · have hdata : (intToString n).data = (natToString n.natAbs).data := by
      simp [intToString, not_lt.mpr hn]
    unfold strToInt
    split
    · next rest heq =>
        rw [hdata] at heq
        have hdig := natToString_all_digits n.natAbs
        have : ('-' : Char).isDigit = true := by
          apply hdig; rw [heq]; exact List.mem_cons_self _ _
        simp [Char.isDigit] at this
    · rw [hdata, digitsToNat_natToString]
      show some ((n.natAbs : Int)) = some n
      rw [Int.natAbs_of_nonneg hn]

end Dcargs

namespace Dcargs

theorem find_as_str (vals : List PyValue) (v : PyValue) (hmem : v ∈ vals)
    (hnodup : (vals.map as_str).Nodup) :
    vals.find? (fun c => as_str c = as_str v) = some v := by
  induction vals with
  | nil => cases hmem
  | cons c cs ih =>
      by_cases hc : as_str c = as_str v
      · rcases List.mem_cons.mp hmem with rfl | hv
        · simp [List.find?]
        · exfalso
          exact (List.nodup_cons.mp hnodup).1 (hc ▸ List.mem_map_of_mem as_str hv)
      · have hv : v ∈ cs := by
          rcases List.mem_cons.mp hmem with rfl | hv
          · exact absurd rfl hc
          · exact hv
        have htail := ih hv (List.nodup_cons.mp hnodup).2
        have hd : (decide (as_str c = as_str v)) = false := decide_eq_false hc
        simp only [List.find?, hd]
        exact htail

theorem parseOne_generateHelptext (doc : Option String) (a : ArgumentDefinition)
    (i : CmdInput) : parseOne (generateHelptext doc a) i = parseOne a i := rfl

end Dcargs

namespace Dcargs

theorem string_eta (s : String) : (⟨s.data⟩ : String) = s := by
  cases s; rfl

theorem hyphenate_append (a b : String) :
    hyphenate (a ++ b) = hyphenate a ++ hyphenate b := by
  cases a with
  | mk xs =>
      cases b with
      | mk ys =>
          show (⟨(xs ++ ys).map _⟩ : String) = ⟨xs.map _⟩ ++ ⟨ys.map _⟩
          rw [List.map_append]
          rfl

theorem unhyphen_hyphenate (s : String)
    (h : s.data.all (fun c => c ≠ '-') = true) : unhyphen (hyphenate s) = s := by
  cases s with
  | mk cs =>
      show (⟨(cs.map _).map _⟩ : String) = ⟨cs⟩
      rw [List.map_map]
      congr 1
      induction cs with
      | nil => rfl
      | cons c cs ih =>
          simp only [List.all_cons, Bool.and_eq_true, decide_eq_true_eq] at h
          simp only [List.map_cons]
          rw [ih h.2]
          congr 1
          show (if (if c = '_' then '-' else c) = '-' then '_' else
            (if c = '_' then '-' else c)) = c
          by_cases hc : c = '_'
          · simp [hc]
          · simp [hc, h.1]

theorem default_mem_kwargsKeys (a : ArgumentDefinition) :
    ("default") ∈ kwargsKeys a ↔ a.default.isSome = true := by
  unfold kwargsKeys
  cases a.default <;> cases a.type <;> cases a.action <;> cases a.nargs <;>
    cases a.choices <;> cases a.metavar <;> cases a.help <;> cases a.dest <;> simp

theorem isEnumDefault_of_hasIter (d : PyValue) (h : hasIter d = true) :
    isEnumDefault (some d) = false := by
  cases d <;> first | rfl | simp [hasIter] at h

theorem makeFromField_required (doc : Option String) (f : String) (t : TypeAnn)
    (d : Option PyValue) :
    (makeFromField doc f t d).map (fun a => a.required) =
    (makeFromField doc f t d).map (fun _ => d.isNone && !t.isOpt) := by
  cases t with
  | bool =>
      cases d with
      | none => rfl
      | some v =>
          cases v with
          | bool b => cases b <;> rfl
          | pynone => rfl
          | int _ => rfl
          | str _ => rfl
          | enumMember _ _ => rfl
          | tuple _ => rfl
          | list _ => rfl
  | annotated t =>
      cases d <;>
        (simp [makeFromField, requiredIfDefaultSet, handleBooleanFlags,
          recursiveInstantiatorFromType, metadataOf, TypeAnn.isOpt,
          generateHelptext, convertDefaultsToStrings, Except.map, bind, Except.bind,
          pure, Except.pure]) <;>
        (split <;> rfl)
  | int => cases d <;> rfl
  | str => cases d <;> rfl
  | enum _ _ => cases d <;> rfl
  | literal _ => cases d <;> rfl
  | optional _ =>
      cases d with
      | none => rfl
      | some v =>
          (simp [makeFromField, requiredIfDefaultSet, handleBooleanFlags,
            recursiveInstantiatorFromType, metadataOf, TypeAnn.isOpt,
            generateHelptext, convertDefaultsToStrings, Except.map, bind, Except.bind,
            pure, Except.pure]) <;>
          (split <;> rfl)
  | tuple _ => cases d <;> rfl
  | list _ => cases d <;> rfl

theorem makeFromField_default_none (doc : Option String) (f : String) (t : TypeAnn) :
    (makeFromField doc f t none).map (fun a => a.default) =
    (makeFromField doc f t none).map (fun _ => (none : Option PyValue)) := by
  cases t <;> rfl

end Dcargs

namespace Dcargs

theorem string_append_empty (s : String) : s ++ ("") = s := by
  cases s with
  | mk xs =>
      show (⟨xs ++ []⟩ : String) = ⟨xs⟩
      rw [List.append_nil]

theorem string_append_assoc (a b c : String) : (a ++ b) ++ c = a ++ (b ++ c) := by
  cases a with
  | mk xs =>
      cases b with
      | mk ys =>
          cases c with
          | mk zs =>
              show (⟨(xs ++ ys) ++ zs⟩ : String) = ⟨xs ++ (ys ++ zs)⟩
              rw [List.append_assoc]

/-- The pipeline output for a boolean field named `x` with the given
optional default. -/
def boolField (d : Option Bool) : Except String ArgumentDefinition :=
  makeFromField none ("x") .bool (d.map PyValue.bool)

/-- End-to-end parse of that boolean field for one command-line shape. -/
def boolParse (d : Option Bool) (input : CmdInput) : Except ParseErr PyValue :=
  match boolField d with
  | .error _ => .error .usageError
  | .ok arg => parseOne arg input

/-- A boolean field with default `True` nested one record level deep under
a parent field. -/
def nestedTrueBool (p f : String) : Except String ArgumentDefinition :=
  (makeFromField none f .bool (some (.bool true))).map (nestInside p)

/-- The rendering claimed for container defaults by the specification of
the default-rendering stage (shell-safely-quoted, space-joined per-element
strings); written from the claim wording so it can be compared with what
the conversion stage actually produces. -/
def specRenderContainer (xs : List PyValue) : String :=
  String.intercalate (" ") (xs.map (fun x => shlexQuote (as_str x)))

/-- Pipeline output for a field of type `Optional[int]` without a default
(used to instantiate universally quantified theorems below). -/
def optionalIntArg : ArgumentDefinition :=
  { pfx := (""), fieldName := ("x"),
    instantiator := some (.fromType (.optional .int)), name := ("x"),
    type := some (.optional .int), default := none, required := false,
    action := none, nargs := none, choices := none, metavar := some ("INT"),
    help := some ("(default: None)"), dest := none }

/-- Pipeline output for a required field of type `int` (used to instantiate
universally quantified theorems below). -/
def plainIntArg : ArgumentDefinition :=
  { pfx := (""), fieldName := ("x"),
    instantiator := some (.fromType .int), name := ("x"),
    type := some .int, default := none, required := true,
    action := none, nargs := none, choices := none, metavar := some ("INT"),
    help := some (""), dest := none }

/-- A copy of the required-int pipeline output dedicated to the
flag-spelling theorems. -/
def flagIntArg : ArgumentDefinition :=
  { pfx := (""), fieldName := ("x"),
    instantiator := some (.fromType .int), name := ("x"),
    type := some .int, default := none, required := true,
    action := none, nargs := none, choices := none, metavar := some ("INT"),
    help := some (""), dest := none }

/-- A copy of the required-int pipeline output dedicated to the
engine-facing coercion theorems. -/
def engineIntArg : ArgumentDefinition :=
  { pfx := (""), fieldName := ("x"),
    instantiator := some (.fromType .int), name := ("x"),
    type := some .int, default := none, required := true,
    action := none, nargs := none, choices := none, metavar := some ("INT"),
    help := some (""), dest := none }

/-- A boolean-typed argument definition whose default is the integer 3
(the shape that trips the `Invalid default` assertion). -/
def badBoolArg : ArgumentDefinition :=
  { pfx := (""), fieldName := ("x"), instantiator := none, name := ("x"),
    type := some .bool, default := some (.int 3) }

/-- The boolean field with default `False` right after the required-marking
stage, as it reaches the boolean specializer. -/
def falseBoolPre : ArgumentDefinition :=
  { pfx := (""), fieldName := ("x"), instantiator := none, name := ("x"),
    type := some .bool, default := some (.bool false), required := false }

/-- An argument carrying a variadic arity and a list-of-strings default, as
it reaches the helptext and conversion stages. -/
def listDefaultArg : ArgumentDefinition :=
  { pfx := (""), fieldName := ("x"),
    instantiator := some (.fromType (.list .str)), name := ("x"),
    type := some (.list .str),
    default := some (.list [.str ("a b"), .str ("c")]), required := false,
    action := none, nargs := some .variadic, choices := none,
    metavar := some ("LIST"), help := none, dest := none }

end Dcargs

namespace Dcargs

/-- C1: for every supported leaf type and every well-typed value `v`,
rendering `v` as a default through the default-to-string conversion stage
and then applying the field's instantiator with zero user-supplied tokens
yields `v` again — the renderer is a left inverse of the instantiator
(for literal types, provided the stringified constants are distinct, which
exact reverse lookup presupposes). -/
theorem C1_default_roundtrip (fieldName : String) (t : TypeAnn) (v : PyValue)
    (hleaf : isLeafType t = true) (hv : wellTyped t v = true)
    (hlit : ∀ vals, t = .literal vals → (vals.map as_str).Nodup) :
    defaultRoundTrip fieldName t v = .ok v := by
  cases t with
  | bool =>
      cases v with
      | bool b => cases b <;> rfl
      | pynone => simp [wellTyped] at hv
      | int _ => simp [wellTyped] at hv
      | str _ => simp [wellTyped] at hv
      | enumMember _ _ => simp [wellTyped] at hv
      | tuple _ => simp [wellTyped] at hv
      | list _ => simp [wellTyped] at hv
  | int =>
      cases v with
      | int n =>
          have h : defaultRoundTrip fieldName .int (.int n) =
              (match strToInt (intToString n) with
               | some m => .ok (.int m)
               | none => .error .conversionError) := rfl
          rw [h, strToInt_intToString]
      | pynone => simp [wellTyped] at hv
      | bool _ => simp [wellTyped] at hv
      | str _ => simp [wellTyped] at hv
      | enumMember _ _ => simp [wellTyped] at hv
      | tuple _ => simp [wellTyped] at hv
      | list _ => simp [wellTyped] at hv
  | str =>
      cases v with
      | str s => rfl
      | pynone => simp [wellTyped] at hv
      | bool _ => simp [wellTyped] at hv
      | int _ => simp [wellTyped] at hv
      | enumMember _ _ => simp [wellTyped] at hv
      | tuple _ => simp [wellTyped] at hv
      | list _ => simp [wellTyped] at hv
  | enum e mems =>
      cases v with
      | enumMember e2 m =>
          simp only [wellTyped, Bool.and_eq_true, beq_iff_eq] at hv
          obtain ⟨rfl, hm⟩ := hv
          have hmem : m ∈ mems := by simpa using hm
          have h : defaultRoundTrip fieldName (.enum e mems) (.enumMember e m) =
              (if mems.contains m then .ok (.enumMember e m)
               else .error .invalidChoice) := rfl
          rw [h]
          simp [hmem]
      | pynone => simp [wellTyped] at hv
      | bool _ => simp [wellTyped] at hv
      | int _ => simp [wellTyped] at hv
      | str _ => simp [wellTyped] at hv
      | tuple _ => simp [wellTyped] at hv
      | list _ => simp [wellTyped] at hv
  | literal vals =>
      have hmem : v ∈ vals := by simpa [wellTyped] using hv
      have hnodup := hlit vals rfl
      have h : defaultRoundTrip fieldName (.literal vals) v =
          (match vals.find? (fun c => as_str c = as_str v) with
           | some c => .ok c
           | none => .error .invalidChoice) := rfl
      rw [h, find_as_str vals v hmem hnodup]
  | optional t => simp [isLeafType] at hleaf
  | annotated t => simp [isLeafType] at hleaf
  | tuple ts => simp [isLeafType] at hleaf
  | list t => simp [isLeafType] at hleaf

/-- Witness for C1 at a concrete literal type and value. -/
theorem C1_default_roundtrip_witness :
    defaultRoundTrip ("x") (.literal [.int 0, .int 1, .int 2]) (.int 2) =
      .ok (.int 2) :=
  C1_default_roundtrip ("x") (.literal [.int 0, .int 1, .int 2]) (.int 2)
    (by decide) (by decide)
    (fun vals h => by cases h; decide)

/-- C2: the boolean flag protocol. With default false, absence yields false
and flag presence yields true; with default true, absence yields true and
presence of the negated flag yields false; with no default, absence is a
missing-required failure, the two exact case-sensitive canonical spellings
parse to the corresponding boolean, and every other token is a conversion
failure. -/
theorem C2_boolean_protocol :
    boolParse (some false) .absent = .ok (.bool false) ∧
    boolParse (some false) .flagOnly = .ok (.bool true) ∧
    boolParse (some true) .absent = .ok (.bool true) ∧
    boolParse (some true) .flagOnly = .ok (.bool false) ∧
    boolParse none .absent = .error .missingRequired ∧
    boolParse none (.withToken ("True")) = .ok (.bool true) ∧
    boolParse none (.withToken ("False")) = .ok (.bool false) ∧
    ∀ tok : String, tok ≠ ("True") → tok ≠ ("False") →
      boolParse none (.withToken tok) = .error .conversionError := by
  refine ⟨rfl, rfl, rfl, rfl, rfl, rfl, rfl, ?_⟩
  intro tok h1 h2
  have h : boolParse none (.withToken tok) =
      (if tok = ("True") then .ok (.bool true)
       else if tok = ("False") then .ok (.bool false)
       else .error .conversionError) := rfl
  rw [h, if_neg h1, if_neg h2]

/-- Witness for C2 at the lowercase spelling of true. -/
theorem C2_boolean_protocol_witness :
    boolParse none (.withToken ("true")) = .error .conversionError :=
  C2_boolean_protocol.2.2.2.2.2.2.2 ("true") (by decide) (by decide)

/-- C3: for a boolean field with default true nested under a parent field,
the externally visible flag spelling prefixes `no-` to the hyphenated field
name with the namespace prefix preserved, while the destination key stays
the prefix plus the original field name, and parsing binds true on absence
and false on presence of the negated flag. -/
theorem C3_negated_flag_nesting (p f : String) :
    (nestedTrueBool p f).map (fun arg =>
      (arg.getFlag, destinationKey arg,
       parseOne arg .flagOnly, parseOne arg .absent)) =
    .ok ((("--") ++ hyphenate p ++ (".") ++ ("no-") ++ hyphenate f,
          p ++ (".") ++ f,
          .ok (.bool false), .ok (.bool true))) := by
  have h0 : (nestedTrueBool p f).map (fun arg =>
      (arg.getFlag, destinationKey arg,
       parseOne arg .flagOnly, parseOne arg .absent)) =
    .ok ((("--") ++ hyphenate (((p ++ (".")) ++ ("")) ++ (("no_") ++ f)),
          ((p ++ (".")) ++ ("")) ++ f,
          .ok (.bool false), .ok (.bool true))) := rfl
  rw [h0]
  have h1 : hyphenate (("no_") ++ f) = ("no-") ++ hyphenate f := by
    rw [hyphenate_append]
    rfl
  have h2 : hyphenate ((".") ++ (("no_") ++ f)) =
      (".") ++ (("no-") ++ hyphenate f) := by
    rw [hyphenate_append, h1]
    rfl
  have h3 : hyphenate (p ++ ((".") ++ (("no_") ++ f))) =
      hyphenate p ++ ((".") ++ (("no-") ++ hyphenate f)) := by
    rw [hyphenate_append, h2]
  simp only [string_append_empty, string_append_assoc, h3]

end Dcargs

namespace Dcargs

/-- C4: for every argument definition the pipeline produces, the required
flag is true exactly when the field has no default and its resolved type is
not optional-wrapped. -/
theorem C4_required_iff (doc : Option String) (f : String) (t : TypeAnn)
    (d : Option PyValue) (arg : ArgumentDefinition)
    (h : makeFromField doc f t d = .ok arg) :
    arg.required = (d.isNone && !t.isOpt) := by
  have hc := makeFromField_required doc f t d
  rw [h] at hc
  simpa [Except.map] using hc

/-- Witness for C4 on an optional-int field without a default. -/
theorem C4_required_iff_witness :
    optionalIntArg.required =
      ((none : Option PyValue).isNone && !(TypeAnn.optional .int).isOpt) :=
  C4_required_iff none ("x") (.optional .int) none optionalIntArg rfl

/-- C5 counterexample: on a variadic field whose default contains the
two-element list with the string `a b`, the default-to-string conversion
stage produces the tuple of plain unquoted per-element strings, not the
shell-safely-quoted space-joined string the claim describes (which would be
the single string with `a b` quoted). -/
theorem C5_counterexample :
    (makeFromField none ("x") (.list .str)
        (some (.list [.str ("a b"), .str ("c")]))).map (fun a => a.default) =
      .ok (some (.tuple [.str ("a b"), .str ("c")])) ∧
    specRenderContainer [.str ("a b"), .str ("c")] = ("\x27a b\x27 c") ∧
    (some (.tuple [.str ("a b"), .str ("c")]) : Option PyValue) ≠
      some (.str ("\x27a b\x27 c")) :=
  ⟨rfl, rfl, by decide⟩

/-- C5 amended: the conversion stage renders an enum default as its member
name and a container (arity-carrying) default as a tuple of per-element
unquoted strings, one per container element, and every other default via a
direct string conversion; the shell-safely-quoted, space-joined rendering
appears only in the helptext annotation produced by the helptext stage. -/
theorem C5_amended_default_rendering (doc : Option String)
    (arg : ArgumentDefinition) (d : PyValue)
    (hact : arg.action = none) (hd : arg.default = some d) :
    (arg.nargs = none →
        (convertDefaultsToStrings arg).default = some (.str (as_str d))) ∧
    (arg.nargs.isSome = true →
        (convertDefaultsToStrings arg).default =
          some (.tuple ((pyIter d).map (fun x => .str (as_str x))))) ∧
    (∀ e m, as_str (.enumMember e m) = m) ∧
    (arg.required = false → arg.nargs.isSome = true → hasIter d = true →
        (generateHelptext doc arg).help =
          some (String.intercalate (" ") (docPartsOf doc ++
            [("(default: ") ++
             String.intercalate (" ")
               ((pyIter d).map (fun x => shlexQuote (pyStr x))) ++ (")")]))) := by
  refine ⟨?_, ?_, fun e m => rfl, ?_⟩
  · intro hn
    simp [convertDefaultsToStrings, hd, hact, hn]
  · intro hn
    simp [convertDefaultsToStrings, hd, hact, hn]
  · intro hreq hn hit
    simp [generateHelptext, hd, hact, hreq, hn, hit, isEnumDefault_of_hasIter d hit]

/-- Witness for the amended C5 on the variadic list-of-strings field. -/
theorem C5_amended_default_rendering_witness :
    (convertDefaultsToStrings listDefaultArg).default =
      some (.tuple ((pyIter (.list [.str ("a b"), .str ("c")])).map
        (fun x => .str (as_str x)))) :=
  (C5_amended_default_rendering none listDefaultArg
    (.list [.str ("a b"), .str ("c")]) rfl rfl).2.1 rfl

/-- C6: the externally visible flag spelling is two dashes followed by
prefix plus name with underscores rendered as hyphens, the destination key
is the un-hyphenated prefix plus name (for hyphen-free prefix and name, the
only shapes Python identifiers and dotted prefixes produce), and a nested
parent field `b` with child `y` is addressed as `--b.y`. -/
theorem C6_flag_and_destination (arg : ArgumentDefinition)
    (hdest : arg.dest = none)
    (hclean : (arg.pfx ++ arg.name).data.all (fun c => c ≠ '-') = true) :
    arg.getFlag = ("--") ++ hyphenate (arg.pfx ++ arg.name) ∧
    destinationKey arg = arg.pfx ++ arg.name ∧
    (makeFromField none ("y") .int none).map (fun a =>
      ((nestInside ("b") a).getFlag, destinationKey (nestInside ("b") a))) =
      .ok ((("--b.y"), ("b.y"))) := by
  refine ⟨rfl, ?_, rfl⟩
  unfold destinationKey addArgumentCall
  rw [hdest]
  show unhyphen ⟨(arg.getFlag).data.drop 2⟩ = arg.pfx ++ arg.name
  have hflag : (arg.getFlag).data = ('-' :: '-' :: (hyphenate (arg.pfx ++ arg.name)).data) := by
    show ((("--") ++ hyphenate (arg.pfx ++ arg.name)).data) = _
    rw [data_append]
    rfl
  rw [hflag]
  show unhyphen ⟨(hyphenate (arg.pfx ++ arg.name)).data⟩ = arg.pfx ++ arg.name
  rw [string_eta]
  exact unhyphen_hyphenate _ hclean

/-- Witness for C6 on the required-int pipeline output. -/
theorem C6_flag_and_destination_witness :
    flagIntArg.getFlag = ("--") ++ hyphenate (flagIntArg.pfx ++ flagIntArg.name) ∧
    destinationKey flagIntArg = flagIntArg.pfx ++ flagIntArg.name ∧
    (makeFromField none ("y") .int none).map (fun a =>
      ((nestInside ("b") a).getFlag, destinationKey (nestInside ("b") a))) =
      .ok ((("--b.y"), ("b.y"))) :=
  C6_flag_and_destination flagIntArg rfl (by decide)

/-- C7 counterexample: when the boolean specializer triggers (bool field,
default false), the pipeline attaches the identity instantiator, so the
claim that no instantiator is attached is false. -/
theorem C7_counterexample :
    (makeFromField none ("x") .bool (some (.bool false))).map
        (fun a => a.instantiator) = .ok (some .identity) ∧
    (Except.ok (some Instantiator.identity) :
        Except String (Option Instantiator)) ≠ .ok none :=
  ⟨rfl, by simp⟩

/-- C7 amended: when the boolean specializer triggers, the field's `type`
is cleared and the identity instantiator (not no instantiator) is
attached; the generic resolver is then fully bypassed, precisely because an
instantiator is already present, so the boolean from the parsing engine
passes through unchanged. -/
theorem C7_amended_bypass (a1 a2 : ArgumentDefinition) (b : Bool)
    (htype : a1.type = some .bool) (hdef : a1.default = some (.bool b))
    (h : handleBooleanFlags a1 = .ok a2) :
    a2.type = none ∧ a2.instantiator = some .identity ∧
    recursiveInstantiatorFromType a2 = .ok a2 := by
  unfold handleBooleanFlags at h
  rw [htype, hdef] at h
  rw [if_neg (by simp)] at h
  cases b
  all_goals
    injection h with h2
    subst h2
    exact ⟨rfl, rfl, rfl⟩

end Dcargs

namespace Dcargs

/-- Witness for the amended C7 on the default-false boolean field. -/
theorem C7_amended_bypass_witness :
    ({ pfx := (""), fieldName := ("x"), instantiator := some .identity,
       name := ("x"), type := none, default := some (.bool false),
       required := false, action := some .storeTrue, nargs := none,
       choices := none, metavar := none, help := none,
       dest := none } : ArgumentDefinition).type = none ∧
    ({ pfx := (""), fieldName := ("x"), instantiator := some .identity,
       name := ("x"), type := none, default := some (.bool false),
       required := false, action := some .storeTrue, nargs := none,
       choices := none, metavar := none, help := none,
       dest := none } : ArgumentDefinition).instantiator = some .identity ∧
    recursiveInstantiatorFromType
      { pfx := (""), fieldName := ("x"), instantiator := some .identity,
        name := ("x"), type := none, default := some (.bool false),
        required := false, action := some .storeTrue, nargs := none,
        choices := none, metavar := none, help := none, dest := none } =
      .ok { pfx := (""), fieldName := ("x"), instantiator := some .identity,
            name := ("x"), type := none, default := some (.bool false),
            required := false, action := some .storeTrue, nargs := none,
            choices := none, metavar := none, help := none, dest := none } :=
  C7_amended_bypass falseBoolPre _ false rfl rfl rfl

/-- C8: for a bool-typed field, the boolean specializer fails its
`Invalid default` assertion exactly when the default is neither absent nor
one of the two booleans; under that precondition the assertion branch is
unreachable. -/
theorem C8_invalid_default (a : ArgumentDefinition) (h : a.type = some .bool) :
    (handleBooleanFlags a = .error ("Invalid default")) ↔
      ¬(a.default = none ∨ a.default = some (.bool true) ∨
        a.default = some (.bool false)) := by
  unfold handleBooleanFlags
  rw [h]
  cases hd : a.default with
  | none => simp
  | some v =>
      cases v with
      | bool b => cases b <;> simp
      | pynone => simp
      | int _ => simp
      | str _ => simp
      | enumMember _ _ => simp
      | tuple _ => simp
      | list _ => simp

/-- Witness for C8 on a bool field whose default is the integer 3. -/
theorem C8_invalid_default_witness :
    handleBooleanFlags badBoolArg = .error ("Invalid default") :=
  (C8_invalid_default badBoolArg rfl).mpr (by decide)

/-- C9: an explicit default of `None` is the absent-default marker: the
field is marked required (cleared again only for optional-wrapped types),
the final definition still carries no default, and `add_argument` never
forwards a `default` keyword because every `None`-valued attribute is
dropped. -/
theorem C9_none_default (doc : Option String) (f : String) (t : TypeAnn)
    (arg : ArgumentDefinition) (h : makeFromField doc f t none = .ok arg) :
    arg.required = !t.isOpt ∧ arg.default = none ∧
    ("default") ∉ kwargsKeys arg := by
  have hr := makeFromField_required doc f t none
  rw [h] at hr
  have hd := makeFromField_default_none doc f t
  rw [h] at hd
  have hdef : arg.default = none := by simpa [Except.map] using hd
  refine ⟨by simpa [Except.map] using hr, hdef, ?_⟩
  intro hmem
  have hs := (default_mem_kwargsKeys arg).mp hmem
  rw [hdef] at hs
  simp at hs

/-- Witness for C9 on a required int field. -/
theorem C9_none_default_witness :
    plainIntArg.required = !TypeAnn.int.isOpt ∧ plainIntArg.default = none ∧
    ("default") ∉ kwargsKeys plainIntArg :=
  C9_none_default none ("x") .int plainIntArg rfl

/-- C10: every definition handed to the engine has its conversion type
coerced to the string type external name and its choices element-wise
stringified, and for a value-carrying argument the engine only ever
produces the raw string token. -/
theorem C10_engine_strings (arg : ArgumentDefinition) :
    ((addArgumentCall arg).type = none ∨
      (addArgumentCall arg).type = some TypeAnn.str) ∧
    (addArgumentCall arg).choices = arg.choices.map (List.map pyStr) ∧
    (∀ tok v, arg.action = none →
      engineOutput arg (.withToken tok) = .ok v → v = .str tok) := by
  refine ⟨?_, rfl, ?_⟩
  · cases harg : arg.type <;> simp [addArgumentCall, harg]
  · intro tok v hact hout
    have hh : engineOutput arg (.withToken tok) =
        (match (addArgumentCall arg).choices with
         | some cs => if cs.contains tok then Except.ok (PyValue.str tok)
                      else Except.error ParseErr.invalidChoice
         | none => Except.ok (PyValue.str tok)) := by
      show (match (addArgumentCall arg).action with
            | some _ => Except.error ParseErr.usageError
            | none =>
                match (addArgumentCall arg).choices with
                | some cs => if cs.contains tok then Except.ok (PyValue.str tok)
                             else Except.error ParseErr.invalidChoice
                | none => Except.ok (PyValue.str tok)) = _
      rw [show (addArgumentCall arg).action = arg.action from rfl, hact]
    rw [hh] at hout
    cases hch : (addArgumentCall arg).choices with
    | none =>
        rw [hch] at hout
        injection hout with h2
        exact h2.symm
    | some cs =>
        rw [hch] at hout
        split at hout
        · split at hout
          · injection hout with h2
            exact h2.symm
          · cases hout
        · injection hout with h2
          exact h2.symm

/-- Witness for C10 on the required-int pipeline output and the token 5. -/
theorem C10_engine_strings_witness :
    (PyValue.str ("5")) = .str ("5") :=
  (C10_engine_strings engineIntArg).2.2 ("5") (.str ("5")) rfl rfl

end Dcargs
